import Mathlib

/- Shallow embedding of the core of the genai-rag-agent repository:
   document chunking (src/rag/document_processor.py), the vector store
   boundary (src/rag/embeddings.py and src/rag/pipeline.py), the tool
   registry (src/agent/tools.py) and the agent execution loop
   (src/agent/agent.py).  Python strings are Lean Strings, Python lists are
   Lean Lists, Python dicts with string keys are association lists with
   unique keys, and code that can raise returns Except PyErr.  External
   capabilities, namely the LLM, the restricted eval builtin, the clock,
   the embedding model and the chroma ranking, are parameters of the
   embedding.  Curly brace characters are written Char.ofNat 123 and
   Char.ofNat 125 and, inside string literals, as hex escapes. -/

set_option maxRecDepth 4000

def lbrace : Char := Char.ofNat 123

def rbrace : Char := Char.ofNat 125

/- Python substring test, sub in s.  An empty pattern is contained in
   every string, as in Python. -/

def listHasPre : List Char → List Char → Bool
  | [], _ => true
  | _ :: _, [] => false
  | p :: ps, c :: cs => p == c && listHasPre ps cs

def listHasSub (pat : List Char) : List Char → Bool
  | [] => pat.isEmpty
  | c :: cs => listHasPre pat (c :: cs) || listHasSub pat cs

def strContains (s sub : String) : Bool := listHasSub sub.data s.data

/- Python str.find and str.rfind restricted to a single character,
   returning none instead of -1. -/

def strFindChar (s : String) (c : Char) : Option Nat := s.data.findIdx? (· == c)

def strRFindChar (s : String) (c : Char) : Option Nat :=
  (s.data.reverse.findIdx? (· == c)).map (fun i => s.data.length - 1 - i)

/- Python slice s[a:b] for nonnegative bounds. -/

def pySliceStr (s : String) (a b : Nat) : String := ⟨(s.data.take b).drop a⟩

/- Python str.upper for the ASCII role strings used by the agent. -/

def pyUpper (s : String) : String := ⟨s.data.map Char.toUpper⟩

/- JSON values as produced by json.loads.  Numeric literals are kept as
   their source lexeme: the agent code never does arithmetic on parsed
   numbers, it only moves them around, so the lexeme is a faithful
   representation. -/

inductive Json where
  | null : Json
  | bool (b : Bool) : Json
  | num (lexeme : String) : Json
  | str (s : String) : Json
  | arr (items : List Json) : Json
  | obj (members : List (String × Json)) : Json

/- Exceptions that the embedded code can raise. -/

inductive PyErr where
  | keyError (key : String)
  | typeError
  | valueError (msg : String)
  | attributeError
deriving DecidableEq

/- Python dict with string keys: an association list with unique keys.
   dictInsert mirrors dict assignment, an existing key keeps its position
   and gets the new value, a new key is appended. -/

abbrev PyDict := List (String × Json)

def dictGet (d : PyDict) (k : String) : Option Json := (d.find? (·.1 == k)).map (·.2)

def dictInsert (d : PyDict) (k : String) (v : Json) : PyDict :=
  if (d.find? (·.1 == k)).isSome then
    d.map (fun p => if p.1 == k then (k, v) else p)
  else d ++ [(k, v)]

/- A model of json.loads.  JSON whitespace, strings with the standard
   escapes, numbers kept as lexemes, arrays and objects; objects collapse
   duplicate keys with dict-insertion semantics exactly as the Python
   parser does.  The whole input must be consumed up to trailing
   whitespace, as json.loads requires.  The recursion is driven by fuel
   that strictly exceeds the input length, which bounds the depth of any
   parse of that input. -/

def isJsonWs (c : Char) : Bool := c == ' ' || c == '\t' || c == '\n' || c == '\r'

def jEscCharOf : Char → Option Char
  | '"' => some '"'
  | '\\' => some '\\'
  | '/' => some '/'
  | 'b' => some (Char.ofNat 8)
  | 'f' => some (Char.ofNat 12)
  | 'n' => some '\n'
  | 'r' => some '\r'
  | 't' => some '\t'
  | _ => none

def hexVal (c : Char) : Option Nat :=
  if c.isDigit then some (c.toNat - 48)
  else if 97 ≤ c.toNat && c.toNat ≤ 102 then some (c.toNat - 87)
  else if 65 ≤ c.toNat && c.toNat ≤ 70 then some (c.toNat - 55)
  else none

def jStrChars : List Char → Option (List Char × List Char)
  | [] => none
  | c :: cs =>
    if c == '"' then some ([], cs)
    else if c == '\\' then
      match cs with
      | [] => none
      | e :: cs1 =>
        match jEscCharOf e with
        | some ce => (jStrChars cs1).map (fun p => (ce :: p.1, p.2))
        | none =>
          if e == 'u' then
            match cs1 with
            | h1 :: h2 :: h3 :: h4 :: cs2 =>
              match hexVal h1, hexVal h2, hexVal h3, hexVal h4 with
              | some a, some b, some c2, some d =>
                (jStrChars cs2).map
                  (fun p => (Char.ofNat (((a * 16 + b) * 16 + c2) * 16 + d) :: p.1, p.2))
              | _, _, _, _ => none
            | _ => none
          else none
    else if c.toNat < 32 then none
    else (jStrChars cs).map (fun p => (c :: p.1, p.2))

def digitsPre (l : List Char) : List Char := l.takeWhile (·.isDigit)

def jNumLex (l : List Char) : Option (List Char × List Char) :=
  let sl : List Char × List Char :=
    match l with
    | c :: cs => if c == '-' then ([c], cs) else ([], l)
    | [] => ([], [])
  match sl.2 with
  | [] => none
  | c :: cs =>
    if ¬ c.isDigit then none
    else
      let ipart := if c == '0' then [c] else c :: digitsPre cs
      let r1 := sl.2.drop ipart.length
      let fracRes : Option (List Char × List Char) :=
        match r1 with
        | p :: ds =>
          if p == '.' then
            let fd := digitsPre ds
            if fd.isEmpty then none else some (p :: fd, ds.drop fd.length)
          else some ([], r1)
        | [] => some ([], [])
      match fracRes with
      | none => none
      | some (fpart, r2) =>
        let expRes : Option (List Char × List Char) :=
          match r2 with
          | e :: es =>
            if e == 'e' || e == 'E' then
              let se : List Char × List Char :=
                match es with
                | s :: ss => if s == '+' || s == '-' then ([s], ss) else ([], es)
                | [] => ([], [])
              let ed := digitsPre se.2
              if ed.isEmpty then none
              else some (e :: (se.1 ++ ed), se.2.drop ed.length)
            else some ([], r2)
          | [] => some ([], [])
        match expRes with
        | none => none
        | some (epart, r3) => some (sl.1 ++ ipart ++ fpart ++ epart, r3)

mutual

def jVal : Nat → List Char → Option (Json × List Char)
  | 0, _ => none
  | fuel + 1, l =>
    match l.dropWhile isJsonWs with
    | [] => none
    | c :: cs =>
      if c == lbrace then
        match cs.dropWhile isJsonWs with
        | c1 :: cs1 =>
          if c1 == rbrace then some (Json.obj [], cs1)
          else
            match jMembers fuel (c1 :: cs1) [] with
            | some (kvs, r) => some (Json.obj kvs, r)
            | none => none
        | [] => none
      else if c == '[' then
        match cs.dropWhile isJsonWs with
        | c1 :: cs1 =>
          if c1 == ']' then some (Json.arr [], cs1)
          else
            match jItems fuel (c1 :: cs1) [] with
            | some (items, r) => some (Json.arr items, r)
            | none => none
        | [] => none
      else if c == '"' then
        match jStrChars cs with
        | some (w, r) => some (Json.str ⟨w⟩, r)
        | none => none
      else
        match c :: cs with
        | 't' :: 'r' :: 'u' :: 'e' :: r => some (Json.bool true, r)
        | 'f' :: 'a' :: 'l' :: 's' :: 'e' :: r => some (Json.bool false, r)
        | 'n' :: 'u' :: 'l' :: 'l' :: r => some (Json.null, r)
        | l1 =>
          match jNumLex l1 with
          | some (lx, r) => some (Json.num ⟨lx⟩, r)
          | none => none

def jMembers : Nat → List Char → PyDict → Option (PyDict × List Char)
  | 0, _, _ => none
  | fuel + 1, l, acc =>
    match l with
    | c :: cs =>
      if c == '"' then
        match jStrChars cs with
        | some (k, r1) =>
          match r1.dropWhile isJsonWs with
          | c2 :: cs2 =>
            if c2 == ':' then
              match jVal fuel cs2 with
              | some (v, r3) =>
                let acc1 := dictInsert acc ⟨k⟩ v
                match r3.dropWhile isJsonWs with
                | c3 :: cs3 =>
                  if c3 == ',' then jMembers fuel (cs3.dropWhile isJsonWs) acc1
                  else if c3 == rbrace then some (acc1, cs3)
                  else none
                | [] => none
              | none => none
            else none
          | [] => none
        | none => none
      else none
    | [] => none

def jItems : Nat → List Char → List Json → Option (List Json × List Char)
  | 0, _, _ => none
  | fuel + 1, l, acc =>
    match jVal fuel l with
    | some (v, r1) =>
      let acc1 := acc ++ [v]
      match r1.dropWhile isJsonWs with
      | c2 :: cs2 =>
        if c2 == ',' then jItems fuel cs2 acc1
        else if c2 == ']' then some (acc1, cs2)
        else none
      | [] => none
    | none => none

end

def jsonLoads (s : String) : Option Json :=
  match jVal (s.length + 2) s.data with
  | some (v, rest) => if (rest.dropWhile isJsonWs).isEmpty then some v else none
  | none => none

/- A model of json.dumps with the default separators.  Only used to build
   the text of the system message that reports a tool result; no theorem
   inspects its output. -/

def jEscCharList (c : Char) : List Char :=
  if c == '"' then ['\\', '"']
  else if c == '\\' then ['\\', '\\']
  else if c == '\n' then ['\\', 'n']
  else if c == '\t' then ['\\', 't']
  else if c == '\r' then ['\\', 'r']
  else [c]

def jEscString (s : String) : String := ⟨(s.data.map jEscCharList).flatten⟩

mutual

def jsonDumps : Json → String
  | .null => "null"
  | .bool b => if b then "true" else "false"
  | .num lx => lx
  | .str s => "\"" ++ jEscString s ++ "\""
  | .arr items => "[" ++ dumpsItemsArr items ++ "]"
  | .obj kvs => ⟨[lbrace]⟩ ++ dumpsItemsObj kvs ++ ⟨[rbrace]⟩

def dumpsItemsArr : List Json → String
  | [] => ""
  | [x] => jsonDumps x
  | x :: xs => jsonDumps x ++ ", " ++ dumpsItemsArr xs

def dumpsItemsObj : List (String × Json) → String
  | [] => ""
  | [(k, v)] => "\"" ++ jEscString k ++ "\": " ++ jsonDumps v
  | (k, v) :: xs => "\"" ++ jEscString k ++ "\": " ++ jsonDumps v ++ ", " ++ dumpsItemsObj xs

end

/- Python str() of a parsed JSON value, used by f-strings in the source.
   For containers this approximates repr; no theorem depends on it. -/

def pyStrJson : Json → String
  | .str s => s
  | .num lx => lx
  | .bool b => if b then "True" else "False"
  | .null => "None"
  | j => jsonDumps j

/- Python truthiness of a parsed JSON value.  A number is falsy exactly
   when its mantissa has no nonzero digit. -/

def mantissaNonZero (lx : String) : Bool :=
  (lx.data.takeWhile (fun c => c != 'e' && c != 'E')).any (fun c => c.isDigit && c != '0')

def pyTruthy : Json → Bool
  | .null => false
  | .bool b => b
  | .num lx => mantissaNonZero lx
  | .str s => !s.isEmpty
  | .arr items => !items.isEmpty
  | .obj kvs => !kvs.isEmpty

/- The document chunker, src/rag/document_processor.py.  chunk_size and
   chunk_overlap are the constructor arguments; the constructor performs
   no validation, it only stores them, so it is modelled by the structure
   literal itself. -/

structure DocumentChunker where
  chunk_size : Nat
  chunk_overlap : Nat

/- Python str.split with no separator: split on whitespace runs and drop
   empty fragments.  The accumulator carries the word being read. -/

def pyWordsAux : List Char → List Char → List (List Char)
  | [], acc => if acc.isEmpty then [] else [acc]
  | c :: cs, acc =>
    if c.isWhitespace then
      if acc.isEmpty then pyWordsAux cs [] else acc :: pyWordsAux cs []
    else pyWordsAux cs (acc ++ [c])

def pyWords (s : String) : List String := (pyWordsAux s.data []).map (fun w => ⟨w⟩)

/- The Python expression that joins words with single spaces. -/

def joinSpaceChars : List (List Char) → List Char
  | [] => []
  | [w] => w
  | w :: ws => w ++ ' ' :: joinSpaceChars ws

def pyJoinSpace (ws : List String) : String := ⟨joinSpaceChars (ws.map String.data)⟩

/- Python str.strip with no argument. -/

def pyStripChars (l : List Char) : List Char :=
  ((l.dropWhile Char.isWhitespace).reverse.dropWhile Char.isWhitespace).reverse

def pyStrip (s : String) : String := ⟨pyStripChars s.data⟩

/- The two regex substitutions of DocumentChunker._clean_text: collapse
   every whitespace run to one space, then drop characters outside the
   allow-set of word characters and listed punctuation, then strip. -/

def collapseWsAux : List Char → Bool → List Char
  | [], _ => []
  | c :: cs, prevWs =>
    if c.isWhitespace then
      if prevWs then collapseWsAux cs true else ' ' :: collapseWsAux cs true
    else c :: collapseWsAux cs false

def isAllowedChar (c : Char) : Bool :=
  c.isAlphanum || c == '_' || c.isWhitespace ||
    c == '.' || c == ',' || c == '!' || c == '?' || c == '-' || c == ':' || c == ';'

def cleanText (s : String) : String :=
  ⟨pyStripChars ((collapseWsAux s.data false).filter isAllowedChar)⟩

/- Python str.split with a nonempty separator: split at each leftmost
   non-overlapping occurrence, keeping empty pieces.  Fuel strictly above
   the input length makes the recursion structural. -/

def splitSepAux (sep : List Char) : Nat → List Char → List Char → List (List Char)
  | _, [], acc => [acc]
  | 0, l, acc => [acc ++ l]
  | fuel + 1, c :: cs, acc =>
    if listHasPre sep (c :: cs) then
      acc :: splitSepAux sep fuel ((c :: cs).drop sep.length) []
    else splitSepAux sep fuel cs (acc ++ [c])

def pySplitSub (s sep : String) : List String :=
  (splitSepAux sep.data (s.data.length + 1) s.data []).map (fun w => ⟨w⟩)

/- DocumentChunker._semantic_split: fold over the paragraphs, growing a
   character buffer while it stays under chunk_size characters, flushing
   the stripped buffer otherwise. -/

def semanticSplit (c : DocumentChunker) (text : String) : List String :=
  let paragraphs := pySplitSub text "\n\n"
  let st := paragraphs.foldl
    (fun (st : List String × String) para =>
      if st.2.length + para.length < c.chunk_size then
        (st.1, st.2 ++ " " ++ para)
      else
        ((if st.2.isEmpty then st.1 else st.1 ++ [pyStrip st.2]), para))
    ([], "")
  st.1 ++ (if st.2.isEmpty then [] else [pyStrip st.2])

/- Python negative-index tail slice lst[-k:] for a nonnegative k.  When k
   is 0 the Python slice is lst[0:], the whole list, not the empty list:
   this quirk is load-bearing for the overlap behaviour. -/

def pyTailSlice (k : Nat) (l : List α) : List α :=
  if k = 0 then l else l.drop (l.length - k)

/- DocumentChunker._size_split on one chunk: chunks of at most chunk_size
   words pass through, larger ones are re-split by a sliding word window
   with a tail slice of chunk_overlap words carried over. -/

def sizeStep (cs co : Nat) (st : List String × List String) (w : String) :
    List String × List String :=
  let cur := st.2 ++ [w]
  if cs ≤ cur.length then (st.1 ++ [pyJoinSpace cur], pyTailSlice co cur)
  else (st.1, cur)

def sizeSplitOne (cs co : Nat) (chunk : String) : List String :=
  let words := pyWords chunk
  if words.length ≤ cs then [chunk]
  else
    let st := words.foldl (sizeStep cs co) ([], [])
    st.1 ++ (if st.2.isEmpty then [] else [pyJoinSpace st.2])

def sizeSplit (cs co : Nat) (chunks : List String) : List String :=
  (chunks.map (sizeSplitOne cs co)).flatten

/- The chunk dictionaries built by chunk_text, and the enumeration loop
   that assigns 0-based chunk ids. -/

structure PyChunk where
  content : String
  chunk_id : Nat
  metadata : PyDict
  length : Nat

def resolveMeta (m : Option PyDict) : PyDict := m.getD []

def chunkAssemble (m : PyDict) : Nat → List String → List PyChunk
  | _, [] => []
  | i, ch :: rest => ⟨ch, i, m, (pyWords ch).length⟩ :: chunkAssemble m (i + 1) rest

def chunkText (c : DocumentChunker) (text : String) (metadata : Option PyDict) : List PyChunk :=
  let t := cleanText text
  let chunks := sizeSplit c.chunk_size c.chunk_overlap (semanticSplit c t)
  chunkAssemble (resolveMeta metadata) 0 chunks

/- The tool registry, src/agent/tools.py.  A ToolResult mirrors the
   pydantic model: success flag, optional output value, optional error
   text.  A registered tool is its description plus its execute method;
   execute receives the keyword-argument dict and may raise, which models
   Python binding errors (a missing or unexpected keyword argument raises
   TypeError before the tool body runs).  Tool bodies wrap their own work
   in try-except and so never raise themselves. -/

structure ToolResult where
  success : Bool
  output : Option Json
  error : Option String

structure PyTool where
  description : String
  exec : List (String × Json) → Except PyErr ToolResult

/- CalculatorTool: the body delegates to the restricted eval builtin,
   modelled as an external function evalFn; any evaluation failure is
   caught and becomes a failed ToolResult.  The signature is
   execute(self, expression), so the kwargs must bind exactly the key
   "expression". -/

def calculatorTool (evalFn : Json → Except String Json) : PyTool where
  description := "Perform mathematical calculations"
  exec := fun kwargs =>
    match kwargs with
    | [("expression", v)] =>
      .ok (match evalFn v with
        | .ok r => ⟨true, some (.obj [("expression", v), ("result", r)]), none⟩
        | .error e => ⟨false, none, some ("Calculation error: " ++ e)⟩)
    | _ => .error .typeError

/- WebSearchTool: returns a synthetic result; now is the external clock
   reading used for the timestamp field. -/

def webSearchTool (now : String) : PyTool where
  description := "Search the web for information"
  exec := fun kwargs =>
    match kwargs with
    | [("query", v)] =>
      .ok ⟨true,
        some (.obj [("query", v),
          ("results", .arr [.obj [
            ("title", .str ("Result 1 for \x27" ++ pyStrJson v ++ "\x27")),
            ("snippet", .str "This is a simulated search result."),
            ("url", .str "https://example.com/result1")]]),
          ("timestamp", .str now)]),
        none⟩
    | _ => .error .typeError

/- ToolRegistry: a dict from tool name to tool.  register overwrites by
   name keeping the position, as dict assignment does.  The default
   registry built with no rag pipeline holds calculator and web_search. -/

def registerTool (reg : List (String × PyTool)) (name : String) (t : PyTool) :
    List (String × PyTool) :=
  if (reg.find? (·.1 == name)).isSome then
    reg.map (fun p => if p.1 == name then (name, t) else p)
  else reg ++ [(name, t)]

def defaultRegistry (evalFn : Json → Except String Json) (now : String) :
    List (String × PyTool) :=
  registerTool (registerTool [] "calculator" (calculatorTool evalFn)) "web_search"
    (webSearchTool now)

def lookupTool (reg : List (String × PyTool)) (name : String) : Option PyTool :=
  (reg.find? (·.1 == name)).map (·.2)

/- ToolRegistry.execute_tool: an unknown name yields a failed ToolResult
   rather than raising; a known name calls the tool with the keyword
   arguments, and whatever that call raises propagates. -/

def executeTool (reg : List (String × PyTool)) (name : String)
    (kwargs : List (String × Json)) : Except PyErr ToolResult :=
  match lookupTool reg name with
  | none => .ok ⟨false, none, some ("Tool \x27" ++ name ++ "\x27 not found")⟩
  | some t => t.exec kwargs

def toolDescriptions (reg : List (String × PyTool)) : String :=
  String.intercalate "\n" (reg.map (fun p => "- " ++ p.1 ++ ": " ++ p.2.description))

/- The agent, src/agent/agent.py.  Messages carry role, content and the
   parsed tool calls; timestamps are wall-clock readings outside the
   embedding.  The LLM is the external generation capability, a function
   from the prompt string to the response text. -/

structure Message where
  role : String
  content : String
  toolCalls : List Json

structure AgentCfg where
  name : String
  llm : String → String
  tools : List (String × PyTool)
  maxIterations : Nat

/- AIAgent._build_system_prompt, the f-string with the tool descriptions
   injected. -/

def systemPromptOf (cfg : AgentCfg) : String :=
  "You are a helpful AI assistant called " ++ cfg.name ++
  ".\nYou have access to the following tools:\n\n" ++
  toolDescriptions cfg.tools ++
  "\n\nWhen you need to use a tool, respond with a JSON object like this:\n" ++
  "\x7b\"tool\": \"tool_name\", \"args\": \x7b\"arg1\": \"value1\", \"arg2\": \"value2\"\x7d\x7d" ++
  "\n\nAlways be helpful, accurate, and honest. If you don\x27t know something, say so."

/- AIAgent._format_conversation_history. -/

def formatConversationHistory (cfg : AgentCfg) (hist : List Message) : String :=
  (hist.foldl (fun acc m => acc ++ pyUpper m.role ++ ": " ++ m.content ++ "\n")
    (systemPromptOf cfg ++ "\n\n")) ++ "ASSISTANT: "

/- AIAgent._should_use_tool: the permissive substring heuristic. -/

def shouldUseTool (r : String) : Bool :=
  strContains r ⟨[lbrace]⟩ && strContains r "tool"

/- AIAgent._parse_tool_call: slice from the first open brace to the last
   close brace and run json.loads over the slice; any parse failure is
   swallowed to none.  When no close brace exists Python rfind yields -1
   and the slice is empty, so the parse fails and is swallowed too. -/

def parseToolCall (r : String) : Option Json :=
  if shouldUseTool r then
    match strFindChar r lbrace with
    | some st =>
      match strRFindChar r rbrace with
      | some en => jsonLoads (pySliceStr r st (en + 1))
      | none => jsonLoads (pySliceStr r st 0)
    | none => none
  else none

/- The combined guard of execute_query lines 159 to 166: the response is
   dispatched as a tool call only when the heuristic fires, the parse
   succeeds and the parsed value is truthy; otherwise the iteration falls
   through to the final-answer branch. -/

def chooseAction (r : String) : Option Json :=
  if shouldUseTool r then
    match parseToolCall r with
    | some tc => if pyTruthy tc then some tc else none
    | none => none
  else none

/- Python subscription tool_call["tool"]: a missing key raises KeyError;
   subscribing a non-dict with a string raises TypeError.  The source only
   reaches this with a parsed truthy value, which is always a nonempty
   object, but the model is total. -/

def jsonSubscript (tc : Json) (k : String) : Except PyErr Json :=
  match tc with
  | .obj kvs =>
    match dictGet kvs k with
    | some v => .ok v
    | none => .error (.keyError k)
  | _ => .error .typeError

/- tool_call.get("args", empty dict); .get on a non-dict would raise
   AttributeError. -/

def argsDefault (tc : Json) : Except PyErr Json :=
  match tc with
  | .obj kvs => .ok ((dictGet kvs "args").getD (.obj []))
  | _ => .error .attributeError

/- Double-star unpacking of the args value into keyword arguments: a
   non-mapping raises TypeError at the call site. -/

def kwargsOf (j : Json) : Except PyErr (List (String × Json)) :=
  match j with
  | .obj kvs => .ok kvs
  | _ => .error .typeError

/- execute_tool called with the parsed tool name value.  A list or dict
   name is unhashable and the membership test raises TypeError; any other
   non-string value is hashable but never equals a string key, so the
   not-found result is returned; a string name goes through the registry
   lookup. -/

def executeToolJ (reg : List (String × PyTool)) (nameJ : Json)
    (kwargs : List (String × Json)) : Except PyErr ToolResult :=
  match nameJ with
  | .str s => executeTool reg s kwargs
  | .arr _ => .error .typeError
  | .obj _ => .error .typeError
  | other => .ok ⟨false, none, some ("Tool \x27" ++ pyStrJson other ++ "\x27 not found")⟩

/- One record of trace.tool_calls. -/

structure ToolCallRec where
  iteration : Nat
  tool : Json
  args : Json
  result : ToolResult

/- The while loop of execute_query, with verbose false.  The fuel is the
   number of loop entries still allowed, so it starts at max_iterations;
   iter is the Python iteration counter.  Alongside the Python state the
   loop carries promptLog, the list of prompt strings fed to the LLM, used
   to state what the generation capability can observe. -/

structure LoopOut where
  finalResponse : Option String
  iterations : Nat
  history : List Message
  recs : List ToolCallRec
  promptLog : List String

def agentLoop (cfg : AgentCfg) :
    Nat → Nat → List Message → List ToolCallRec → List String → Except PyErr LoopOut
  | 0, iter, hist, recs, prompts => .ok ⟨none, iter, hist, recs, prompts⟩
  | fuel + 1, iter, hist, recs, prompts =>
    let iter1 := iter + 1
    let prompt := formatConversationHistory cfg hist
    let prompts1 := prompts ++ [prompt]
    let r := cfg.llm prompt
    match chooseAction r with
    | none =>
      .ok ⟨some r, iter1, hist ++ [⟨"assistant", r, []⟩], recs, prompts1⟩
    | some tc =>
      match jsonSubscript tc "tool" with
      | .error e => .error e
      | .ok nameJ =>
        match argsDefault tc with
        | .error e => .error e
        | .ok argsJ =>
          match kwargsOf argsJ with
          | .error e => .error e
          | .ok kwargs =>
            match executeToolJ cfg.tools nameJ kwargs with
            | .error e => .error e
            | .ok _ =>
              -- Source line 178 builds the trace record with
              -- dataclasses.asdict(tool_result).  ToolResult is a pydantic
              -- BaseModel, not a dataclass, and a BaseModel instance is
              -- always truthy, so asdict is always evaluated and raises
              -- TypeError.  The record append, the two history appends and
              -- the continue at lines 180 to 194 are therefore dead code:
              -- every dispatched tool call raises out of execute_query.
              .error .typeError

/- Python truthiness of the final_response variable, an optional string:
   None and the empty string are falsy.  The source uses it twice, in
   final_response or "Failed to generate response" and in the trace status
   conditional, while success is computed with is not None. -/

def pyStrTruthy (s : String) : Bool := !s.data.isEmpty

def pyOptStrTruthy : Option String → Bool
  | some s => pyStrTruthy s
  | none => false

def pyOrStr (o : Option String) (d : String) : String :=
  match o with
  | some s => if pyStrTruthy s then s else d
  | none => d

/- The value returned by execute_query, flattened: the returned dict plus
   the trace fields the claims speak about.  traceMessages reflects that
   the source appends only the user message to trace.messages. -/

structure ExecOut where
  query : String
  response : String
  iterations : Nat
  success : Bool
  status : String
  recs : List ToolCallRec
  traceMessages : List Message
  historyAfter : List Message
  promptLog : List String

/- AIAgent.execute_query.  Line 129 of the source overwrites
   self.conversation_history with a fresh list before appending the user
   message, so the prior history passed in here is discarded without being
   read. -/

def executeQuery (cfg : AgentCfg) (priorHistory : List Message) (q : String) :
    Except PyErr ExecOut :=
  let userMsg : Message := ⟨"user", q, []⟩
  let hist0 := [userMsg]
  match agentLoop cfg cfg.maxIterations 0 hist0 [] [] with
  | .error e => .error e
  | .ok out =>
    .ok {
      query := q
      response := pyOrStr out.finalResponse "Failed to generate response"
      iterations := out.iterations
      success := out.finalResponse.isSome
      status := if pyOptStrTruthy out.finalResponse then "completed" else "error"
      recs := out.recs
      traceMessages := [userMsg]
      historyAfter := out.history
      promptLog := out.promptLog }

/- The vector database, src/rag/embeddings.py.  V is the embedding vector
   type, opaque to the repository code.  An entry is one stored tuple at
   the chroma boundary of spec section 6: id, vector, document text and
   metadata.  The chroma client itself is an external collaborator; its
   add is modelled as appending the tuples, and its query is modelled by
   an external ranking function plus truncation to the requested number of
   results, per the boundary contract. -/

structure VdbEntry (V : Type) where
  id : String
  vec : V
  document : Json
  metadata : Json

structure VectorDB (V : Type) where
  entries : List (VdbEntry V)

/- The content extraction loop of add_documents: doc["content"] raises
   KeyError when absent. -/

def docContents : List PyDict → Except PyErr (List Json)
  | [] => .ok []
  | d :: ds =>
    match dictGet d "content" with
    | none => .error (.keyError "content")
    | some t => (docContents ds).map (fun ts => t :: ts)

/- VectorDatabase.add_documents: a length mismatch raises ValueError;
   otherwise ids doc_0 .. doc_n-1 are assigned from the per-call range and
   the tuples are added to the collection.  The assigned ids are returned
   alongside the new database state so that properties about them can be
   stated. -/

def addDocuments (db : VectorDB V) (docs : List PyDict) (embs : List V) :
    Except PyErr (VectorDB V × List String) :=
  if docs.length ≠ embs.length then
    .error (.valueError "Number of documents must match number of embeddings")
  else
    let ids := (List.range docs.length).map (fun i => "doc_" ++ Nat.repr i)
    let metadatas := docs.map (fun d => (dictGet d "metadata").getD (.obj []))
    match docContents docs with
    | .error e => .error e
    | .ok texts =>
      let newEntries :=
        (ids.zip (embs.zip (texts.zip metadatas))).map
          (fun p => VdbEntry.mk p.1 p.2.1 p.2.2.1 p.2.2.2)
      .ok (⟨db.entries ++ newEntries⟩, ids)

/- One search hit as built by VectorDatabase.search. -/

structure SearchHit where
  content : Json
  score : Rat
  metadata : Json

/- collection.query at the spec section 6 boundary: rankFn is the external
   chroma similarity ranking over the stored entries paired with their
   distances, and the collection returns at most top_k ranked results.
   A nonpositive top_k is an empty request. -/

def chromaQuery (rankFn : List (VdbEntry V) → V → List (VdbEntry V × Rat))
    (db : VectorDB V) (qv : V) (top_k : Int) : List (VdbEntry V × Rat) :=
  (rankFn db.entries qv).take top_k.toNat

/- VectorDatabase.search: when the returned document list is empty the
   guard skips the loop and the empty list is returned, otherwise each
   returned row becomes a hit dict. -/

def vdbSearch (rankFn : List (VdbEntry V) → V → List (VdbEntry V × Rat))
    (db : VectorDB V) (qv : V) (top_k : Int) : List SearchHit :=
  let raw := chromaQuery rankFn db qv top_k
  if raw.isEmpty then []
  else raw.map (fun p => ⟨p.1.document, p.2, p.1.metadata⟩)

/- RAGPipeline.retrieve: embed the query with the external embedding
   capability, then search the vector database. -/

def ragRetrieve (embedFn : String → V)
    (rankFn : List (VdbEntry V) → V → List (VdbEntry V × Rat))
    (db : VectorDB V) (q : String) (top_k : Int) : List SearchHit :=
  vdbSearch rankFn db (embedFn q) top_k

/- A word as produced by Python str.split: nonempty and free of
   whitespace. -/

def GoodW (w : String) : Prop :=
  w.data ≠ [] ∧ ∀ c ∈ w.data, c.isWhitespace = false

/- Decimal decoding used to invert Nat.repr for the id-uniqueness
   argument. -/

def decodeDigit (a : Nat) (c : Char) : Nat := a * 10 + (c.toNat - 48)

def decodeFrom (v : Nat) (l : List Char) : Nat := l.foldl decodeDigit v

/- Theorems.  Helper lemmas come first, then one theorem per claim with
   its witness or counterexample. -/

lemma semanticSplit_empty (c : DocumentChunker) (h : 0 < c.chunk_size) :
    semanticSplit c "" = [""] := by
  unfold semanticSplit
  rw [show pySplitSub "" "\n\n" = [""] from rfl]
  simp only [List.foldl]
  rw [if_pos (show ("" : String).length + ("" : String).length < c.chunk_size from h)]
  rfl

lemma semanticSplit_single_word (c : DocumentChunker) : semanticSplit c "a" = ["a"] := by
  unfold semanticSplit
  rw [show pySplitSub "a" "\n\n" = ["a"] from rfl]
  simp only [List.foldl]
  by_cases h1 : ("" : String).length + ("a" : String).length < c.chunk_size
  · rw [if_pos h1]; rfl
  · rw [if_neg h1]; rfl

/-- Claim C10: execute_query resets the conversation history to the new
user message alone before the loop starts, so its entire observable
behaviour, in particular every prompt string fed to the generation
capability as collected in promptLog, is independent of whatever history
the agent instance carried from previous execute_query calls. -/
theorem history_reset_no_leak (cfg : AgentCfg) (q : String)
    (prior1 prior2 : List Message) :
    executeQuery cfg prior1 q = executeQuery cfg prior2 q := rfl

/-- Claim C8: execute_tool on a name not present in the registry returns,
for any keyword arguments, a ToolResult with success false, null output
and a non-null error text, and does not raise. -/
theorem unknown_tool_failed_result (reg : List (String × PyTool)) (name : String)
    (kwargs : List (String × Json)) (h : lookupTool reg name = none) :
    executeTool reg name kwargs =
      .ok ⟨false, none, some ("Tool \x27" ++ name ++ "\x27 not found")⟩ := by
  unfold executeTool
  rw [h]

theorem unknown_tool_failed_result_witness :
    executeTool (defaultRegistry (fun _ => .error "e") "t") "does-not-exist" [] =
      .ok ⟨false, none, some "Tool \x27does-not-exist\x27 not found"⟩ :=
  unknown_tool_failed_result (defaultRegistry (fun _ => .error "e") "t") "does-not-exist" []
    rfl

/-- Claim C9: retrieve with a nonpositive top_k returns the empty list of
passages and raises no error, for every query, database state, embedding
capability and ranking. -/
theorem retrieve_nonpos_topk_empty {V : Type} (embedFn : String → V)
    (rankFn : List (VdbEntry V) → V → List (VdbEntry V × Rat))
    (db : VectorDB V) (q : String) (k : Int) (h : k ≤ 0) :
    ragRetrieve embedFn rankFn db q k = [] := by
  unfold ragRetrieve vdbSearch chromaQuery
  rw [Int.toNat_of_nonpos h]
  simp

theorem retrieve_nonpos_topk_empty_witness :
    ragRetrieve (V := Unit) (fun _ => ()) (fun es _ => es.map (fun e => (e, (0 : Rat))))
      ⟨[⟨"doc_0", (), Json.str "A", Json.obj []⟩]⟩ "q" (-3) = [] :=
  retrieve_nonpos_topk_empty (fun _ => ()) (fun es _ => es.map (fun e => (e, (0 : Rat))))
    ⟨[⟨"doc_0", (), Json.str "A", Json.obj []⟩]⟩ "q" (-3) (by decide)

/-- Claim C4, counterexample: the registered calculator tool invoked with
an empty keyword-argument map raises TypeError past the registry boundary
instead of returning a ToolResult, because Python raises the binding
error before the tool body and its try-except ever run. -/
theorem execute_tool_binding_raises_cex :
    executeTool (defaultRegistry (fun _ => .error "unused") "t") "calculator" [] =
      .error .typeError := rfl

/-- Claim C4, amended: for every registered tool of the default registry
and every keyword-argument map that binds to the tool signature, namely
exactly the key expression for the calculator and exactly the key query
for the web search tool, execute_tool returns a ToolResult and never
raises; failures inside the tool body are caught by the tool itself, so
the result is ok for every behaviour of the eval capability. -/
theorem execute_tool_bound_args_ok (evalFn : Json → Except String Json) (now : String)
    (name : String) (v : Json) (kw : List (String × Json))
    (h : (name = "calculator" ∧ kw = [("expression", v)]) ∨
         (name = "web_search" ∧ kw = [("query", v)])) :
    ∃ tr, executeTool (defaultRegistry evalFn now) name kw = .ok tr := by
  rcases h with ⟨rfl, rfl⟩ | ⟨rfl, rfl⟩
  · exact ⟨_, rfl⟩
  · exact ⟨_, rfl⟩

theorem execute_tool_bound_args_ok_witness :
    ∃ tr, executeTool (defaultRegistry (fun _ => .ok (Json.num "4")) "t") "calculator"
      [("expression", Json.str "2 + 2")] = .ok tr :=
  execute_tool_bound_args_ok (fun _ => .ok (Json.num "4")) "t" "calculator"
    (Json.str "2 + 2") [("expression", Json.str "2 + 2")] (.inl ⟨rfl, rfl⟩)

/-- Claim C5, counterexample: two successive add_documents calls on the
same instance both assign the id doc_0, the first to passage A and the
second to the distinct passage B, so ids are not unique across calls on
one instance. -/
theorem doc_ids_collide_across_calls_cex :
    (addDocuments (V := Unit) ⟨[]⟩ [[("content", Json.str "A")]] [()] =
      .ok (⟨[⟨"doc_0", (), Json.str "A", Json.obj []⟩]⟩, ["doc_0"])) ∧
    (addDocuments (V := Unit) ⟨[⟨"doc_0", (), Json.str "A", Json.obj []⟩]⟩
        [[("content", Json.str "B")]] [()] =
      .ok (⟨[⟨"doc_0", (), Json.str "A", Json.obj []⟩,
             ⟨"doc_0", (), Json.str "B", Json.obj []⟩]⟩, ["doc_0"])) :=
  ⟨rfl, rfl⟩

/-- Claim C3, counterexample: chunk_text of the empty string under the
default configuration returns one passage with empty content, not zero
passages. -/
theorem empty_input_one_chunk_cex :
    chunkText ⟨1024, 200⟩ "" none = [⟨"", 0, [], 0⟩] := rfl

/-- Claim C3, amended: for every configuration with positive chunk_size
and every metadata, chunk_text of the empty string returns exactly one
passage, with empty content and token count zero, rather than an empty
sequence. -/
theorem empty_input_single_empty_chunk (cs co : Nat) (meta : Option PyDict)
    (h : 0 < cs) :
    chunkText ⟨cs, co⟩ "" meta = [⟨"", 0, resolveMeta meta, 0⟩] := by
  show chunkAssemble (resolveMeta meta) 0
      (sizeSplit cs co (semanticSplit ⟨cs, co⟩ (cleanText ""))) =
    [⟨"", 0, resolveMeta meta, 0⟩]
  rw [show cleanText "" = "" from rfl, semanticSplit_empty ⟨cs, co⟩ h]
  show chunkAssemble (resolveMeta meta) 0 (sizeSplitOne cs co "" ++ []) = _
  rw [show sizeSplitOne cs co "" = [""] from
    if_pos (show (pyWords "").length ≤ cs from Nat.zero_le cs)]
  rfl

theorem empty_input_single_empty_chunk_witness :
    chunkText ⟨5, 2⟩ "" none = [⟨"", 0, [], 0⟩] :=
  empty_input_single_empty_chunk 5 2 none (by decide)

/-- Claim C6, counterexample: a DocumentChunker with chunk_overlap equal
to chunk_size is accepted and chunk_text proceeds to emit chunks; nothing
is rejected before chunking work, so there is no fail-fast configuration
check. -/
theorem overlap_ge_size_no_failfast_cex :
    chunkText ⟨1, 1⟩ "a b c" none =
      [⟨"a", 0, [], 1⟩, ⟨"a b", 1, [], 2⟩, ⟨"b c", 2, [], 2⟩, ⟨"c", 3, [], 1⟩] := rfl

/-- Claim C6, amended: the constructor performs no validation, so a
chunker with chunk_overlap at least chunk_size is constructed as-is and
chunk_text on it still terminates and chunks normally, for example any
single-word input yields that word as its one chunk; the configuration is
silently accepted rather than failing fast. -/
theorem overlap_ge_size_chunking_proceeds (cs co : Nat) (meta : Option PyDict)
    (h1 : 1 ≤ cs) (h2 : cs ≤ co) :
    chunkText ⟨cs, co⟩ "a" meta = [⟨"a", 0, resolveMeta meta, 1⟩] := by
  show chunkAssemble (resolveMeta meta) 0
      (sizeSplit cs co (semanticSplit ⟨cs, co⟩ (cleanText "a"))) =
    [⟨"a", 0, resolveMeta meta, 1⟩]
  rw [show cleanText "a" = "a" from rfl, semanticSplit_single_word]
  show chunkAssemble (resolveMeta meta) 0 (sizeSplitOne cs co "a" ++ []) = _
  rw [show sizeSplitOne cs co "a" = ["a"] from
    if_pos (show (pyWords "a").length ≤ cs from h1)]
  rfl

theorem overlap_ge_size_chunking_proceeds_witness :
    chunkText ⟨1, 2⟩ "a" none = [⟨"a", 0, [], 1⟩] :=
  overlap_ge_size_chunking_proceeds 1 2 none (by decide) (by decide)

/-- Claim C2, counterexample: a response that passes the detection
heuristic and whose brace slice parses to an object without the key tool
makes execute_query raise KeyError: the slice did not parse as an object
with required key tool, yet the failure is not swallowed and the response
does not become the final answer. -/
theorem parse_failure_keyerror_cex :
    executeQuery ⟨"GenAI Agent", fun _ => "\x7b\"a\": 1\x7d tool", [], 3⟩ [] "q" =
      .error (.keyError "tool") := rfl

lemma shouldUseTool_truthy (r : String) (h : shouldUseTool r = true) :
    pyStrTruthy r = true := by
  cases hr : r.data with
  | nil =>
    exfalso
    unfold shouldUseTool strContains at h
    rw [hr] at h
    simp [listHasSub] at h
  | cons c cs =>
    unfold pyStrTruthy
    rw [hr]
    simp

/-- Claim C2, amended: when the generated response passes the tool-call
detection heuristic but the brace slice fails to parse, the parse error
is swallowed: execute_query does not raise, the response is treated as
non-tool output and becomes the final answer, with success true after one
iteration. -/
theorem parse_failure_swallowed (cfg : AgentCfg) (prior : List Message) (q : String)
    (h1 : 1 ≤ cfg.maxIterations)
    (h2 : shouldUseTool (cfg.llm (formatConversationHistory cfg [⟨"user", q, []⟩])) = true)
    (h3 : parseToolCall (cfg.llm (formatConversationHistory cfg [⟨"user", q, []⟩])) = none) :
    ∃ out, executeQuery cfg prior q = .ok out ∧
      out.response = cfg.llm (formatConversationHistory cfg [⟨"user", q, []⟩]) ∧
      out.success = true ∧ out.iterations = 1 := by
  obtain ⟨n, hn⟩ : ∃ n, cfg.maxIterations = n + 1 := ⟨cfg.maxIterations - 1, by omega⟩
  set r := cfg.llm (formatConversationHistory cfg [⟨"user", q, []⟩]) with hr
  have hca : chooseAction r = none := by
    unfold chooseAction
    simp [h2, h3]
  have hloop : agentLoop cfg (n + 1) 0 [⟨"user", q, []⟩] [] [] =
      .ok ⟨some r, 1, [⟨"user", q, []⟩] ++ [⟨"assistant", r, []⟩], [],
           [] ++ [formatConversationHistory cfg [⟨"user", q, []⟩]]⟩ := by
    simp only [agentLoop]
    rw [hca]
  refine ⟨{query := q, response := r, iterations := 1, success := true,
           status := "completed", recs := [], traceMessages := [⟨"user", q, []⟩],
           historyAfter := [⟨"user", q, []⟩] ++ [⟨"assistant", r, []⟩],
           promptLog := [] ++ [formatConversationHistory cfg [⟨"user", q, []⟩]]},
    ?_, rfl, rfl, rfl⟩
  have htru : pyStrTruthy r = true := shouldUseTool_truthy r h2
  simp only [executeQuery]
  rw [hn, hloop]
  simp [pyOrStr, pyOptStrTruthy, htru]

theorem parse_failure_swallowed_witness :
    ∃ out, executeQuery ⟨"GenAI Agent", fun _ => "\x7b\"tool\": \"calc", [], 5⟩ [] "q" =
        .ok out ∧
      out.response = "\x7b\"tool\": \"calc" ∧ out.success = true ∧ out.iterations = 1 :=
  parse_failure_swallowed ⟨"GenAI Agent", fun _ => "\x7b\"tool\": \"calc", [], 5⟩ [] "q"
    (by decide) rfl rfl

/-- Claim C1: the claim fails on the code.  With a generation capability
that always returns tool-call text, execute_query raises TypeError on the
first dispatched tool call instead of looping to budget exhaustion,
because source line 178 applies dataclasses.asdict to the pydantic
ToolResult while building the trace record.  At the failing input below,
generation constantly emitting a tool-call object with budget 2, the
embedding evaluates to that raise, where the claim requires a normal
return with success false and iterations equal to 2. -/
theorem agent_budget_asdict_typeerror :
    executeQuery ⟨"GenAI Agent", fun _ => "\x7b\"tool\": \"x\"\x7d", [], 2⟩ [] "hi" =
      .error .typeError := rfl

lemma digitChar_toNat (d : Nat) (h : d < 10) : (Nat.digitChar d).toNat = d + 48 := by
  interval_cases d <;> rfl

lemma toDigitsCore_decode : ∀ (fuel n : Nat) (acc : List Char), n < fuel →
    decodeFrom 0 (Nat.toDigitsCore 10 fuel n acc) = decodeFrom n acc := by
  intro fuel
  induction fuel with
  | zero => intro n acc h; exact absurd h (Nat.not_lt_zero n)
  | succ f ih =>
    intro n acc h
    simp only [Nat.toDigitsCore]
    by_cases h0 : n / 10 = 0
    · rw [if_pos h0]
      show decodeFrom 0 (Nat.digitChar (n % 10) :: acc) = decodeFrom n acc
      unfold decodeFrom
      simp only [List.foldl]
      congr 1
      simp only [decodeDigit, digitChar_toNat (n % 10) (by omega)]
      omega
    · rw [if_neg h0]
      rw [ih (n / 10) (Nat.digitChar (n % 10) :: acc) (by omega)]
      unfold decodeFrom
      simp only [List.foldl]
      congr 1
      simp only [decodeDigit, digitChar_toNat (n % 10) (by omega)]
      omega

lemma natRepr_injective : Function.Injective Nat.repr := by
  intro m n h
  have hd : Nat.toDigits 10 m = Nat.toDigits 10 n := by
    have h2 := congrArg String.data h
    simpa [Nat.repr, List.asString] using h2
  have hm := toDigitsCore_decode (m + 1) m [] (Nat.lt_succ_self m)
  have hn := toDigitsCore_decode (n + 1) n [] (Nat.lt_succ_self n)
  unfold Nat.toDigits at hd
  rw [hd] at hm
  rw [hn] at hm
  simpa [decodeFrom] using hm.symm

lemma docId_injective : Function.Injective (fun i => "doc_" ++ Nat.repr i) := by
  intro a b h
  apply natRepr_injective
  have h2 : ("doc_" ++ Nat.repr a).data = ("doc_" ++ Nat.repr b).data :=
    congrArg String.data h
  have h3 : "doc_".data ++ (Nat.repr a).data = "doc_".data ++ (Nat.repr b).data := h2
  have h4 := List.append_cancel_left h3
  exact congrArg String.mk h4

/-- Claim C5, amended: within one add_documents call the assigned ids are
pairwise distinct (doc_0 up to doc_n-1), for every database state,
documents and embeddings on which the call succeeds; uniqueness does not
extend across calls, which restart numbering at doc_0. -/
theorem doc_ids_nodup_within_call {V : Type} (db : VectorDB V) (docs : List PyDict)
    (embs : List V) (p : VectorDB V × List String)
    (h : addDocuments db docs embs = .ok p) : p.2.Nodup := by
  simp only [addDocuments] at h
  split at h
  · simp at h
  · split at h
    · simp at h
    · injection h with h2
      subst h2
      exact (List.nodup_range _).map docId_injective

theorem doc_ids_nodup_within_call_witness :
    ((⟨[⟨"doc_0", (), Json.str "A", Json.obj []⟩, ⟨"doc_1", (), Json.str "B", Json.obj []⟩]⟩,
      ["doc_0", "doc_1"]) : VectorDB Unit × List String).2.Nodup :=
  doc_ids_nodup_within_call ⟨[]⟩ [[("content", Json.str "A")], [("content", Json.str "B")]]
    [(), ()] _ rfl

lemma pyWordsAux_good : ∀ (l acc : List Char),
    (∀ c ∈ acc, c.isWhitespace = false) →
    ∀ w ∈ pyWordsAux l acc, w ≠ [] ∧ ∀ c ∈ w, c.isWhitespace = false := by
  intro l
  induction l with
  | nil =>
    intro acc hacc w hw
    simp only [pyWordsAux] at hw
    split at hw
    · simp at hw
    · rename_i hne
      rw [List.mem_singleton] at hw
      subst hw
      exact ⟨by simpa using hne, hacc⟩
  | cons c cs ih =>
    intro acc hacc w hw
    simp only [pyWordsAux] at hw
    split at hw
    · split at hw
      · exact ih [] (by simp) w hw
      · rename_i hcw hne
        rcases List.mem_cons.mp hw with rfl | hw2
        · exact ⟨by simpa using hne, hacc⟩
        · exact ih [] (by simp) w hw2
    · rename_i hcw
      refine ih (acc ++ [c]) ?_ w hw
      intro c2 hc2
      rcases List.mem_append.mp hc2 with h | h
      · exact hacc c2 h
      · rw [List.mem_singleton] at h
        subst h
        simpa using hcw

lemma pyWordsAux_append_word : ∀ (w acc l : List Char),
    (∀ c ∈ w, c.isWhitespace = false) →
    pyWordsAux (w ++ l) acc = pyWordsAux l (acc ++ w) := by
  intro w
  induction w with
  | nil => intro acc l _; simp
  | cons c w' ih =>
    intro acc l hw
    have hc : c.isWhitespace = false := hw c (by simp)
    show pyWordsAux (c :: (w' ++ l)) acc = _
    simp only [pyWordsAux, hc]
    rw [ih (acc ++ [c]) l (fun c2 h => hw c2 (by simp [h]))]
    simp

lemma pyWordsAux_flush (l acc : List Char) (h : acc ≠ []) :
    pyWordsAux (' ' :: l) acc = acc :: pyWordsAux l [] := by
  simp only [pyWordsAux]
  simp [show (' ' : Char).isWhitespace = true from rfl, h]

lemma wordsChars_join : ∀ (ws : List (List Char)),
    (∀ w ∈ ws, w ≠ [] ∧ ∀ c ∈ w, c.isWhitespace = false) →
    pyWordsAux (joinSpaceChars ws) [] = ws := by
  intro ws
  induction ws with
  | nil => intro _; rfl
  | cons w ws' ih =>
    intro h
    have hw := h w (by simp)
    cases ws' with
    | nil =>
      show pyWordsAux (joinSpaceChars [w]) [] = [w]
      rw [show joinSpaceChars [w] = w from rfl]
      have h2 := pyWordsAux_append_word w [] [] hw.2
      simp only [List.append_nil, List.nil_append] at h2
      rw [h2]
      simp only [pyWordsAux]
      simp [hw.1]
    | cons w2 ws'' =>
      rw [show joinSpaceChars (w :: w2 :: ws'') = w ++ ' ' :: joinSpaceChars (w2 :: ws'')
        from rfl]
      rw [pyWordsAux_append_word w [] (' ' :: joinSpaceChars (w2 :: ws'')) hw.2]
      simp only [List.nil_append]
      rw [pyWordsAux_flush _ w hw.1]
      rw [ih (fun w' h' => h w' (List.mem_cons_of_mem _ h'))]

lemma pyWords_join (ws : List String)
    (h : ∀ w ∈ ws, w.data ≠ [] ∧ ∀ c ∈ w.data, c.isWhitespace = false) :
    pyWords (pyJoinSpace ws) = ws := by
  unfold pyWords pyJoinSpace
  rw [show (String.mk (joinSpaceChars (ws.map String.data))).data
      = joinSpaceChars (ws.map String.data) from rfl]
  rw [wordsChars_join (ws.map String.data)
    (fun w' hw' => by
      obtain ⟨w, hw, rfl⟩ := List.mem_map.mp hw'
      exact h w hw)]
  rw [List.map_map]
  exact List.map_id ws

lemma pyWords_good (s : String) :
    ∀ w ∈ pyWords s, w.data ≠ [] ∧ ∀ c ∈ w.data, c.isWhitespace = false := by
  intro w hw
  unfold pyWords at hw
  obtain ⟨w0, hw0, rfl⟩ := List.mem_map.mp hw
  exact pyWordsAux_good s.data [] (by simp) w0 hw0

lemma sizeStep_preserves (cs co : Nat) (hco : 1 ≤ co) (hlt : co < cs)
    (st : List String × List String) (w : String)
    (hw : w.data ≠ [] ∧ ∀ c ∈ w.data, c.isWhitespace = false)
    (h1 : ∀ s ∈ st.1, (pyWords s).length ≤ cs)
    (h2 : ∀ w' ∈ st.2, w'.data ≠ [] ∧ ∀ c ∈ w'.data, c.isWhitespace = false)
    (h3 : st.2.length < cs) :
    (∀ s ∈ (sizeStep cs co st w).1, (pyWords s).length ≤ cs) ∧
    (∀ w' ∈ (sizeStep cs co st w).2,
      w'.data ≠ [] ∧ ∀ c ∈ w'.data, c.isWhitespace = false) ∧
    (sizeStep cs co st w).2.length < cs := by
  have hcur2 : ∀ w' ∈ st.2 ++ [w], w'.data ≠ [] ∧ ∀ c ∈ w'.data, c.isWhitespace = false := by
    intro w' h'
    rcases List.mem_append.mp h' with h' | h'
    · exact h2 w' h'
    · rw [List.mem_singleton] at h'
      subst h'
      exact hw
  simp only [sizeStep]
  by_cases hcond : cs ≤ (st.2 ++ [w]).length
  · rw [if_pos hcond]
    have hlen : (st.2 ++ [w]).length = cs := by
      simp only [List.length_append, List.length_singleton] at hcond ⊢
      omega
    refine ⟨?_, ?_, ?_⟩
    · intro s hs
      rcases List.mem_append.mp hs with hs | hs
      · exact h1 s hs
      · rw [List.mem_singleton] at hs
        subst hs
        rw [pyWords_join _ hcur2, hlen]
    · intro w' h'
      unfold pyTailSlice at h'
      rw [if_neg (by omega : ¬ co = 0)] at h'
      exact hcur2 w' (List.mem_of_mem_drop h')
    · unfold pyTailSlice
      rw [if_neg (by omega : ¬ co = 0), List.length_drop, hlen]
      omega
  · rw [if_neg hcond]
    refine ⟨h1, hcur2, ?_⟩
    simp only [List.length_append, List.length_singleton] at hcond ⊢
    omega

lemma sizeLoop_bound (cs co : Nat) (hco : 1 ≤ co) (hlt : co < cs) :
    ∀ (ws : List String) (st : List String × List String),
      (∀ w ∈ ws, w.data ≠ [] ∧ ∀ c ∈ w.data, c.isWhitespace = false) →
      (∀ s ∈ st.1, (pyWords s).length ≤ cs) →
      (∀ w' ∈ st.2, w'.data ≠ [] ∧ ∀ c ∈ w'.data, c.isWhitespace = false) →
      st.2.length < cs →
      (∀ s ∈ (ws.foldl (sizeStep cs co) st).1, (pyWords s).length ≤ cs) ∧
      (∀ w' ∈ (ws.foldl (sizeStep cs co) st).2,
        w'.data ≠ [] ∧ ∀ c ∈ w'.data, c.isWhitespace = false) ∧
      (ws.foldl (sizeStep cs co) st).2.length < cs := by
  intro ws
  induction ws with
  | nil => intro st _ h1 h2 h3; exact ⟨h1, h2, h3⟩
  | cons w ws' ih =>
    intro st hws h1 h2 h3
    obtain ⟨hA, hB, hC⟩ := sizeStep_preserves cs co hco hlt st w (hws w (by simp)) h1 h2 h3
    exact ih (sizeStep cs co st w) (fun w' h' => hws w' (by simp [h'])) hA hB hC

lemma sizeSplitOne_bound (cs co : Nat) (hco : 1 ≤ co) (hlt : co < cs) (chunk : String) :
    ∀ s ∈ sizeSplitOne cs co chunk, (pyWords s).length ≤ cs := by
  intro s hs
  simp only [sizeSplitOne] at hs
  split at hs
  · rename_i hpass
    rw [List.mem_singleton] at hs
    subst hs
    exact hpass
  · obtain ⟨hA, hB, hC⟩ := sizeLoop_bound cs co hco hlt (pyWords chunk) ([], [])
      (pyWords_good chunk) (by simp) (by simp) (by show (0 : Nat) < cs; omega)
    rcases List.mem_append.mp hs with hs | hs
    · exact hA s hs
    · split at hs
      · simp at hs
      · rw [List.mem_singleton] at hs
        subst hs
        rw [pyWords_join _ hB]
        omega

lemma chunkAssemble_content_mem (m : PyDict) :
    ∀ (i : Nat) (l : List String) (ch : PyChunk),
      ch ∈ chunkAssemble m i l → ch.content ∈ l := by
  intro i l
  induction l generalizing i with
  | nil => intro ch h; simp [chunkAssemble] at h
  | cons s rest ih =>
    intro ch h
    simp only [chunkAssemble] at h
    rcases List.mem_cons.mp h with rfl | h2
    · simp
    · exact List.mem_cons_of_mem _ (ih (i + 1) ch h2)

/-- Claim C7, counterexample: with chunk_size 2 and chunk_overlap 0 the
configuration precondition chunk_overlap lt chunk_size holds, yet
chunk_text on input a b c emits chunks whose whitespace token counts are
2, 3 and 3: two chunks exceed chunk_size, because the Python tail slice
with negative zero index keeps the whole window instead of nothing. -/
theorem zero_overlap_chunk_exceeds_size_cex :
    (chunkText ⟨2, 0⟩ "a b c" none).map (fun c => (pyWords c.content).length) =
      [2, 3, 3] := rfl

/-- Claim C7, amended: for every input text and metadata, and every
configuration with 0 lt chunk_overlap lt chunk_size, every chunk emitted
by chunk_text has a whitespace-delimited token count of at most
chunk_size.  The strengthened lower bound on the overlap is forced by the
negative-zero slice quirk exhibited in the counterexample. -/
theorem chunk_token_bound (cs co : Nat) (text : String) (meta : Option PyDict)
    (h1 : 0 < co) (h2 : co < cs) :
    ∀ ch ∈ chunkText ⟨cs, co⟩ text meta, (pyWords ch.content).length ≤ cs := by
  intro ch hch
  have hmem : ch.content ∈ sizeSplit cs co (semanticSplit ⟨cs, co⟩ (cleanText text)) :=
    chunkAssemble_content_mem (resolveMeta meta) 0 _ ch hch
  unfold sizeSplit at hmem
  rw [List.mem_flatten] at hmem
  obtain ⟨l, hl, hcl⟩ := hmem
  obtain ⟨c0, _, rfl⟩ := List.mem_map.mp hl
  exact sizeSplitOne_bound cs co (by omega) h2 c0 ch.content hcl

theorem chunk_token_bound_witness : (pyWords "a b").length ≤ 2 := by
  have h : chunkText ⟨2, 1⟩ "a b c" none =
      [⟨"a b", 0, [], 2⟩, ⟨"b c", 1, [], 2⟩, ⟨"c", 2, [], 1⟩] := rfl
  exact chunk_token_bound 2 1 "a b c" none (by decide) (by decide)
    ⟨"a b", 0, [], 2⟩ (h ▸ List.mem_cons_self _ _)
